import Mathlib

/-!
Shallow embedding of the container-discovery and proxy-lifecycle manager of
the webtail repository (the DockerWatcher in the main package).  Pure label
resolution is embedded as Lean functions; the registry bookkeeping is embedded
as explicit state passing over a `WatcherState` record.  Proxy handles are
identified by natural numbers allocated in creation order; calls to a handle's
Start and Stop are recorded in lists so that "exactly once" properties can be
stated.  Line numbers in doc comments refer to the watcher source file.
-/

/-- Label key constant (source line 20). -/
def labelEnabled : String := "webtail.enabled"

/-- Label key constant (source line 21). -/
def labelProtocol : String := "webtail.protocol"

/-- Label key constant (source line 22). -/
def labelPort : String := "webtail.port"

/-- Label key constant (source line 23). -/
def labelNodeName : String := "webtail.node_name"

/-- Label key constant (source line 24). -/
def labelPassHostHeader : String := "webtail.pass_host_header"

/-- Label key constant (source line 25). -/
def labelTrustForwardHeader : String := "webtail.trust_forward_header"

/-- Default protocol constant (source line 27). -/
def defaultProtocol : String := "http"

/-- Go map indexing with the comma-ok form: `v, ok := m[k]`.  A Go map has
unique keys; it is embedded as an association list queried by first match.
Absent keys yield the zero value for strings together with `false`. -/
def mapGet2 (m : List (String × String)) (k : String) : String × Bool :=
  match m.find? (fun p => p.1 = k) with
  | some p => (p.2, true)
  | none => ("", false)

/-- Go map indexing without the ok flag: `m[k]`, yielding `""` when absent. -/
def mapGet (m : List (String × String)) (k : String) : String :=
  (mapGet2 m k).1

/-- Embeds strings.ToLower as used at source line 169, as a character-wise
map (Char.toLower agrees with Go on the ASCII letters that the comparison
against "true" can meet). -/
def toLower (s : String) : String :=
  String.mk (s.data.map Char.toLower)

/-- Embeds strings.TrimPrefix(rawName, "/") from source line 174: the
container display name with a leading slash stripped, expressed on the
character list. -/
def containerNameOf (rawName : String) : String :=
  if "/".data.isPrefixOf rawName.data then String.mk (rawName.data.drop "/".data.length)
  else rawName

/-- Embeds strconv.ParseBool: the exact set of accepted literals, every other
string is a parse error (embedded as `none`). -/
def parseBool (str : String) : Option Bool :=
  if str = "1" ∨ str = "t" ∨ str = "T" ∨ str = "TRUE" ∨ str = "true" ∨ str = "True" then
    some true
  else if str = "0" ∨ str = "f" ∨ str = "F" ∨ str = "FALSE" ∨ str = "false" ∨ str = "False" then
    some false
  else
    none

/-- Embeds parseBoolLabel (source lines 349 to 358). -/
def parseBoolLabel (value : String) (defaultVal : Bool) : Bool :=
  if value = "" then defaultVal
  else
    match parseBool value with
    | none => defaultVal
    | some b => b

/-- Embeds getLowestExposedPort (source lines 361 to 382).  The nat.PortSet
argument is embedded as the list of numeric values of its port keys (Port.Int
yields 0 for a malformed port, which the source filters out); sort.Ints
followed by taking index 0 is embedded as an ascending sort followed by
head. -/
def getLowestExposedPort (exposedPorts : List Nat) : String :=
  if exposedPorts.isEmpty then ""
  else
    let ports := exposedPorts.filter (fun p => 0 < p)
    if ports.isEmpty then ""
    else
      match ports.insertionSort (fun a b => a ≤ b) with
      | [] => ""
      | p :: _ => toString p

/-- The slice of a ContainerInspect result that handleContainer reads: the
display name, the label map, and the exposed-port set. -/
structure ContainerInspect where
  name : String
  labels : List (String × String)
  exposedPorts : List Nat
deriving DecidableEq, Repr

/-- The service configuration built at source lines 217 to 222 (the two
flag fields are passed as pointers to the parsed booleans). -/
structure ServiceConfig where
  target : String
  nodeName : String
  passHostHeader : Bool
  trustForwardHeader : Bool
deriving DecidableEq, Repr

/-- Outcome of the pure resolution prefix of handleContainer: the two early
returns at lines 170 and 183 are distinguished from eligibility. -/
inductive ResolveOutcome where
  | notEnabled
  | noPort
  | eligible (config : ServiceConfig)
deriving DecidableEq, Repr

/-- The enablement guard of source lines 168 to 171:
`!hasEnabled || strings.ToLower(enabledStr) != "true"`. -/
def enabledGuard (labels : List (String × String)) : Bool :=
  !(mapGet2 labels labelEnabled).2 || (toLower (mapGet2 labels labelEnabled).1 != "true")

/-- Port resolution of source lines 176 to 187: an explicit label value wins,
an empty or absent label falls back to the lowest exposed port. -/
def resolvePort (labels : List (String × String)) (exposedPorts : List Nat) : String :=
  let port := mapGet labels labelPort
  if port = "" then getLowestExposedPort exposedPorts else port

/-- Node-name resolution of source lines 190 to 194. -/
def resolveNodeName (labels : List (String × String)) (containerName : String) : String :=
  let nodeName := mapGet labels labelNodeName
  if nodeName = "" then containerName else nodeName

/-- Protocol resolution of source lines 197 to 200. -/
def resolveProtocol (labels : List (String × String)) : String :=
  let protocol := mapGet labels labelProtocol
  if protocol = "" then defaultProtocol else protocol

/-- Target synthesis of source line 205:
fmt.Sprintf of the protocol, container name, docker network and port. -/
def buildTarget (protocol containerName dockerNetwork port : String) : String :=
  protocol ++ "://" ++ containerName ++ "." ++ dockerNetwork ++ ":" ++ port

/-- The pure label-resolution prefix of handleContainer (source lines 165 to
222): the Label Resolver of the specification. -/
def resolveContainer (i : ContainerInspect) (dockerNetwork : String) : ResolveOutcome :=
  if enabledGuard i.labels then .notEnabled
  else
    let containerName := containerNameOf i.name
    let port := resolvePort i.labels i.exposedPorts
    if port = "" then .noPort
    else
      .eligible
        { target := buildTarget (resolveProtocol i.labels) containerName dockerNetwork port
          nodeName := resolveNodeName i.labels containerName
          passHostHeader := parseBoolLabel (mapGet i.labels labelPassHostHeader) false
          trustForwardHeader := parseBoolLabel (mapGet i.labels labelTrustForwardHeader) false }

/-- State of the DockerWatcher registry bookkeeping.  `proxies` embeds the
containerID-to-Proxy map (keys unique, insertion order kept); a proxy handle
is identified by the Nat allocated at its NewProxy call; `startCalls` and
`stopCalls` record, in order, the handles on which Start and Stop were
invoked. -/
structure WatcherState where
  proxies : List (String × Nat)
  startCalls : List Nat
  stopCalls : List Nat
  nextHandle : Nat
deriving DecidableEq, Repr

/-- The watcher state right after NewDockerWatcher: an empty registry and no
calls made (source line 79). -/
def initialWatcher : WatcherState :=
  { proxies := [], startCalls := [], stopCalls := [], nextHandle := 0 }

/-- Registry lookup, embedding the comma-ok map reads at source lines 209
and 289. -/
def registryLookup (proxies : List (String × Nat)) (containerID : String) : Option Nat :=
  (proxies.find? (fun p => p.1 = containerID)).map Prod.snd

/-- The registry portion of handleContainer (source lines 207 to 250), with
the spawned start goroutine run to completion: if the identity is already
registered nothing happens; otherwise a fresh handle is created and Start is
called on it, and only on Start success is the handle inserted.
`startSucceeds` embeds the error result of proxy.Start(). -/
def registerContainer (s : WatcherState) (containerID : String) (startSucceeds : Bool) :
    WatcherState :=
  if (registryLookup s.proxies containerID).isSome then s
  else
    let h := s.nextHandle
    let s1 : WatcherState :=
      { s with nextHandle := h + 1, startCalls := s.startCalls ++ [h] }
    if startSucceeds then { s1 with proxies := s1.proxies ++ [(containerID, h)] }
    else s1

/-- handleContainer (source lines 158 to 251) as a state transformer: the
inspect result is supplied as a parameter, the resolution prefix decides
eligibility, and eligibility leads to the registry portion. -/
def handleContainer (s : WatcherState) (containerID : String) (i : ContainerInspect)
    (dockerNetwork : String) (startSucceeds : Bool) : WatcherState :=
  match resolveContainer i dockerNetwork with
  | .notEnabled => s
  | .noPort => s
  | .eligible _ => registerContainer s containerID startSucceeds

/-- stopProxy (source lines 287 to 300): look up and delete under the lock,
then call Stop outside the lock only when the entry existed. -/
def stopProxy (s : WatcherState) (containerID : String) : WatcherState :=
  match registryLookup s.proxies containerID with
  | some proxy =>
      { s with
        proxies := s.proxies.filter (fun p => p.1 ≠ containerID)
        stopCalls := s.stopCalls ++ [proxy] }
  | none => s

/-- The three select arms of the watchContainerStop loop (source lines 266 to
283): cancellation of the watcher context, a delivery on the error channel
(the container-scoped stream ended or failed), or an event message. -/
inductive WatchEvent where
  | ctxDone
  | streamErr
  | message (action : String)
deriving DecidableEq, Repr

/-- Result of one iteration of the watchContainerStop select loop: either the
goroutine returns, or it loops for the next delivery. -/
inductive WatchStep where
  | exit (s : WatcherState)
  | again (s : WatcherState)
deriving DecidableEq, Repr

/-- One iteration of watchContainerStop (source lines 266 to 283): on context
cancellation it returns; on an error-channel delivery it logs and returns; on
a stop, die or kill message it calls stopProxy and returns; on any other
message it loops. -/
def watchContainerStop (s : WatcherState) (containerID : String) (ev : WatchEvent) :
    WatchStep :=
  match ev with
  | .ctxDone => .exit s
  | .streamErr => .exit s
  | .message action =>
      if action = "stop" ∨ action = "die" ∨ action = "kill" then
        .exit (stopProxy s containerID)
      else
        .again s

/-- Ordered observable effects of the Stop method (source lines 303 to 334):
the context cancellation, the Stop call on each drained handle, the Docker
client Close, and the WaitGroup wait on all spawned goroutines. -/
inductive StopEffect where
  | cancel
  | stopProxyCall (proxy : Nat)
  | closeClient
  | waitTasks
deriving DecidableEq, Repr

/-- The Stop method of the watcher (source lines 303 to 334): cancel, drain
the whole registry into a local list under the lock replacing it with an
empty map, call Stop on every drained handle, close the client, wait for all
goroutines.  Returns the final state together with the ordered effect
trace. -/
def watcherStop (s : WatcherState) : WatcherState × List StopEffect :=
  let proxiesToStop := s.proxies.map (fun p => p.2)
  let s1 : WatcherState := { s with proxies := [] }
  let s2 : WatcherState := { s1 with stopCalls := s1.stopCalls ++ proxiesToStop }
  (s2,
    StopEffect.cancel ::
      (proxiesToStop.map StopEffect.stopProxyCall ++
        [StopEffect.closeClient, StopEffect.waitTasks]))

/-- Registry operations that mutate the proxies map, for stating the registry
invariant over arbitrary interleavings of the three mutating paths. -/
inductive WatcherOp where
  | start (containerID : String) (startSucceeds : Bool)
  | stopEvent (containerID : String)
  | shutdown
deriving DecidableEq, Repr

/-- Apply one registry operation. -/
def applyOp (s : WatcherState) (op : WatcherOp) : WatcherState :=
  match op with
  | .start containerID ok => registerContainer s containerID ok
  | .stopEvent containerID => stopProxy s containerID
  | .shutdown => (watcherStop s).1

/-- Run a sequence of registry operations from a given state. -/
def runOps (s : WatcherState) (ops : List WatcherOp) : WatcherState :=
  ops.foldl applyOp s

/-- The registry invariant: at most one entry per container identity. -/
def RegistryUnique (s : WatcherState) : Prop :=
  s.proxies.Pairwise (fun p q => p.1 ≠ q.1)

/-- A Docker event message as read by handleEvent (source lines 144 to 155):
its type, action and actor identity. -/
structure DockerEvent where
  type : String
  action : String
  actorID : String
deriving DecidableEq, Repr

/-- Effects of one ingestion-loop iteration, separating what runs inline in
the loop goroutine from what is spawned asynchronously with the go
statement. -/
inductive Effect where
  | inspect (containerID : String)
  | spawnStartTask (containerID : String)
deriving DecidableEq, Repr

/-- The effects handleContainer performs synchronously before returning to
its caller (source lines 158 to 251): the ContainerInspect call is issued
inline at line 160; after resolution and the registry presence check, the
only asynchronous dispatch is the go statement at line 231 wrapping
proxy.Start and the stop watcher.  `registryHas` embeds the presence check
of lines 208 to 214. -/
def handleContainerSync (containerID : String) (i : ContainerInspect)
    (dockerNetwork : String) (registryHas : Bool) : List Effect :=
  Effect.inspect containerID ::
    (match resolveContainer i dockerNetwork with
     | .notEnabled => []
     | .noPort => []
     | .eligible _ => if registryHas then [] else [Effect.spawnStartTask containerID])

/-- The effects handleEvent performs synchronously (source lines 144 to 155):
a non-container event is ignored, a start action is handled by a plain call
to handleContainer, any other action is ignored.  The ingestion loop (source
line 117) invokes handleEvent directly in its select loop, so these effects
all run before the next event can be received. -/
def handleEventSync (event : DockerEvent) (i : ContainerInspect)
    (dockerNetwork : String) (registryHas : Bool) : List Effect :=
  if event.type ≠ "container" then []
  else if event.action = "start" then
    handleContainerSync event.actorID i dockerNetwork registryHas
  else []

/-! Helper lemmas shared by several developments below. -/

/-- Go map lookup at the key of a freshly added binding yields its value. -/
theorem mapGet2_cons_self (L : List (String × String)) (k v : String) :
    mapGet2 ((k, v) :: L) k = (v, true) := by
  simp [mapGet2]

/-- Go map lookup at any other key ignores an added binding. -/
theorem mapGet2_cons_ne (L : List (String × String)) (k v k' : String) (h : k' ≠ k) :
    mapGet2 ((k, v) :: L) k' = mapGet2 L k' := by
  simp [mapGet2, List.find?_cons, Ne.symm h]

/-- Go map lookup at an unbound key yields the zero value and a false flag. -/
theorem mapGet2_of_find?_none (L : List (String × String)) (k : String)
    (h : L.find? (fun p => p.1 = k) = none) :
    mapGet2 L k = ("", false) := by
  simp [mapGet2, h]

/-- The Label Resolver reads its input only through the display name, the
exposed ports, and the Go map lookups of the six webtail label keys. -/
theorem resolveContainer_congr (i i' : ContainerInspect) (net : String)
    (hname : i.name = i'.name) (hports : i.exposedPorts = i'.exposedPorts)
    (hen : mapGet2 i.labels labelEnabled = mapGet2 i'.labels labelEnabled)
    (hport : mapGet i.labels labelPort = mapGet i'.labels labelPort)
    (hnode : mapGet i.labels labelNodeName = mapGet i'.labels labelNodeName)
    (hproto : mapGet i.labels labelProtocol = mapGet i'.labels labelProtocol)
    (hpass : mapGet i.labels labelPassHostHeader = mapGet i'.labels labelPassHostHeader)
    (htrust : mapGet i.labels labelTrustForwardHeader = mapGet i'.labels labelTrustForwardHeader) :
    resolveContainer i net = resolveContainer i' net := by
  have hget : mapGet i.labels labelEnabled = mapGet i'.labels labelEnabled := by
    simp [mapGet, hen]
  simp only [resolveContainer, enabledGuard, resolvePort, resolveNodeName, resolveProtocol,
    buildTarget, hname, hports, hen, hport, hnode, hproto, hpass, htrust]

/-- A registry lookup misses exactly when no entry carries the identity. -/
theorem registryLookup_eq_none (l : List (String × Nat)) (containerID : String) :
    registryLookup l containerID = none ↔ ∀ p ∈ l, p.1 ≠ containerID := by
  simp [registryLookup, List.find?_eq_none]

/-- After deleting an identity from the registry, looking it up misses. -/
theorem registryLookup_filter_self (l : List (String × Nat)) (containerID : String) :
    registryLookup (l.filter (fun p => p.1 ≠ containerID)) containerID = none := by
  rw [registryLookup_eq_none]
  intro p hp
  have h2 := (List.mem_filter.mp hp).2
  simpa using h2

/-- Inversion of the Label Resolver at an eligible outcome: eligibility pins
the guard, a nonempty resolved port, and every derived field. -/
theorem resolveContainer_eligible_iff (i : ContainerInspect) (net : String)
    (cfg : ServiceConfig) :
    resolveContainer i net = .eligible cfg ↔
      enabledGuard i.labels = false
      ∧ resolvePort i.labels i.exposedPorts ≠ ""
      ∧ cfg = { target := buildTarget (resolveProtocol i.labels) (containerNameOf i.name) net
                    (resolvePort i.labels i.exposedPorts)
                nodeName := resolveNodeName i.labels (containerNameOf i.name)
                passHostHeader := parseBoolLabel (mapGet i.labels labelPassHostHeader) false
                trustForwardHeader := parseBoolLabel (mapGet i.labels labelTrustForwardHeader) false } := by
  by_cases hg : enabledGuard i.labels
  · simp [resolveContainer, hg]
  · by_cases hp : resolvePort i.labels i.exposedPorts = ""
    · simp [resolveContainer, hg, hp]
    · simp [resolveContainer, hg, hp, eq_comm]

/-- What getLowestExposedPort computes on a port set with at least one
positive port: the numerically lowest positive port, rendered in decimal. -/
theorem getLowestExposedPort_spec (exposedPorts : List Nat)
    (h : exposedPorts.filter (fun p => 0 < p) ≠ []) :
    ∃ p, p ∈ exposedPorts ∧ 0 < p ∧ (∀ q ∈ exposedPorts, 0 < q → p ≤ q) ∧
      getLowestExposedPort exposedPorts = toString p := by
  have hep : exposedPorts ≠ [] := by
    intro he
    subst he
    simp at h
  have hperm := List.perm_insertionSort (fun a b => a ≤ b)
    (exposedPorts.filter (fun p => 0 < p))
  have hsorted := List.sorted_insertionSort (fun a b => a ≤ b)
    (exposedPorts.filter (fun p => 0 < p))
  rcases hs : (exposedPorts.filter (fun p => 0 < p)).insertionSort (fun a b => a ≤ b)
    with _ | ⟨p, rest⟩
  · rw [hs] at hperm
    exact absurd (hperm.nil_eq.symm) h
  · rw [hs] at hperm hsorted
    have hpmem : p ∈ exposedPorts.filter (fun p => 0 < p) :=
      hperm.subset (List.mem_cons_self p rest)
    have hpm := List.mem_filter.mp hpmem
    refine ⟨p, hpm.1, by simpa using hpm.2, ?_, ?_⟩
    · intro q hq hq0
      have hqf : q ∈ exposedPorts.filter (fun p => 0 < p) :=
        List.mem_filter.mpr ⟨hq, by simpa using hq0⟩
      have hqs : q ∈ p :: rest := hperm.mem_iff.mpr hqf
      rcases List.mem_cons.mp hqs with rfl | hqrest
      · exact le_refl q
      · exact (List.pairwise_cons.mp hsorted).1 q hqrest
    · unfold getLowestExposedPort
      rw [if_neg (by simpa [List.isEmpty_iff] using hep)]
      rw [if_neg (by simpa [List.isEmpty_iff] using h)]
      rw [hs]

/-- Handling a start notification preserves key uniqueness of the registry. -/
theorem registerContainer_unique (s : WatcherState) (containerID : String) (ok : Bool)
    (h : RegistryUnique s) : RegistryUnique (registerContainer s containerID ok) := by
  unfold registerContainer
  rcases hl : registryLookup s.proxies containerID with _ | v
  · simp only [hl, Option.isSome_none, Bool.false_eq_true, if_false]
    rcases ok with _ | _
    · simpa [RegistryUnique] using h
    · simp only [if_true]
      unfold RegistryUnique at h ⊢
      simp only []
      rw [List.pairwise_append]
      refine ⟨h, List.pairwise_singleton _ _, ?_⟩
      intro a ha b hb
      simp at hb
      rw [hb]
      exact (registryLookup_eq_none s.proxies containerID).mp hl a ha
  · simp [hl, h]

/-- Teardown preserves key uniqueness of the registry. -/
theorem stopProxy_unique (s : WatcherState) (containerID : String)
    (h : RegistryUnique s) : RegistryUnique (stopProxy s containerID) := by
  unfold stopProxy
  rcases hl : registryLookup s.proxies containerID with _ | v
  · simpa using h
  · exact List.Pairwise.sublist (List.filter_sublist _) h

/-- Any sequence of registry operations preserves key uniqueness. -/
theorem runOps_unique (ops : List WatcherOp) (s : WatcherState)
    (h : RegistryUnique s) : RegistryUnique (runOps s ops) := by
  induction ops generalizing s with
  | nil => exact h
  | cons op rest ih =>
      refine ih _ ?_
      rcases op with ⟨cid, ok⟩ | cid | _
      · exact registerContainer_unique s cid ok h
      · exact stopProxy_unique s cid h
      · simp [applyOp, watcherStop, RegistryUnique]

/-- C3: for every container metadata whose enablement label is absent or
whose value is not case-insensitively equal to "true", the Label Resolver
returns not-eligible, regardless of any other labels present, and no further
evaluation is performed. -/
theorem not_enabled_skips_container (i : ContainerInspect) (net : String)
    (h : (mapGet2 i.labels labelEnabled).2 = false
      ∨ toLower (mapGet2 i.labels labelEnabled).1 ≠ "true") :
    resolveContainer i net = ResolveOutcome.notEnabled := by
  have hg : enabledGuard i.labels = true := by
    rcases h with h | h
    · simp [enabledGuard, h]
    · simp [enabledGuard, bne_iff_ne, h]
  simp [resolveContainer, hg]

/-- C3 witness: concrete metadata with enablement value "yes". -/
theorem not_enabled_skips_container_witness :
    resolveContainer ⟨"app", [(labelEnabled, "yes"), (labelPort, "80")], [80]⟩ "net"
      = ResolveOutcome.notEnabled :=
  not_enabled_skips_container ⟨"app", [(labelEnabled, "yes"), (labelPort, "80")], [80]⟩ "net"
    (Or.inr (by decide))

/-- C4: an explicit nonempty port label wins; otherwise the resolved port is
the numerically lowest positive exposed port, e.g. exposed ports 80 and 8080
resolve to "80"; with no explicit label and no exposed ports an enabled
container yields the distinguishable noPort outcome rather than an error. -/
theorem port_resolution_spec :
    (∀ labels ports, mapGet labels labelPort ≠ "" →
        resolvePort labels ports = mapGet labels labelPort)
    ∧ (∀ labels ports, mapGet labels labelPort = "" →
        resolvePort labels ports = getLowestExposedPort ports)
    ∧ (∀ ports : List Nat, ports.filter (fun p => 0 < p) ≠ [] →
        ∃ p, p ∈ ports ∧ 0 < p ∧ (∀ q ∈ ports, 0 < q → p ≤ q) ∧
          getLowestExposedPort ports = toString p)
    ∧ resolvePort [] [80, 8080] = "80"
    ∧ (∀ labels net name, enabledGuard labels = false → mapGet labels labelPort = "" →
        resolveContainer ⟨name, labels, []⟩ net = ResolveOutcome.noPort) := by
  refine ⟨?_, ?_, getLowestExposedPort_spec, by decide, ?_⟩
  · intro labels ports h
    simp [resolvePort, h]
  · intro labels ports h
    simp [resolvePort, h]
  · intro labels net name hg hp
    have hport : resolvePort labels [] = "" := by
      simp [resolvePort, hp, getLowestExposedPort]
    simp [resolveContainer, hg, hport]

/-- C4 witness: a concrete explicit label, and concrete exposed ports. -/
theorem port_resolution_spec_witness :
    resolvePort [(labelPort, "9090")] [80] = mapGet [(labelPort, "9090")] labelPort
    ∧ (∃ p, p ∈ [8080, 80] ∧ 0 < p ∧ (∀ q ∈ [8080, 80], 0 < q → p ≤ q) ∧
        getLowestExposedPort [8080, 80] = toString p)
    ∧ resolveContainer ⟨"app", [(labelEnabled, "true")], []⟩ "net" = ResolveOutcome.noPort :=
  ⟨port_resolution_spec.1 [(labelPort, "9090")] [80] (by decide),
   port_resolution_spec.2.2.1 [8080, 80] (by decide),
   port_resolution_spec.2.2.2.2 [(labelEnabled, "true")] "net" "app" (by decide) (by decide)⟩

/-- C5: the routing target of every eligible container is synthesized as
scheme ++ "://" ++ containerName ++ "." ++ network ++ ":" ++ port, the node
name defaults to the container name with a leading slash stripped, and the
concrete metadata of the claim yields target "http://app.net:8080", node
name "app" and both forwarding flags false. -/
theorem target_synthesis_spec :
    (∀ i net cfg, resolveContainer i net = ResolveOutcome.eligible cfg →
        cfg.target = buildTarget (resolveProtocol i.labels) (containerNameOf i.name) net
            (resolvePort i.labels i.exposedPorts)
        ∧ (mapGet i.labels labelNodeName = "" → cfg.nodeName = containerNameOf i.name))
    ∧ containerNameOf "/my-app" = "my-app"
    ∧ resolveContainer ⟨"app", [(labelEnabled, "true")], [8080]⟩ "net"
        = ResolveOutcome.eligible
            { target := "http://app.net:8080", nodeName := "app",
              passHostHeader := false, trustForwardHeader := false } := by
  refine ⟨?_, by decide, by decide⟩
  intro i net cfg h
  obtain ⟨-, -, hcfg⟩ := (resolveContainer_eligible_iff i net cfg).mp h
  subst hcfg
  exact ⟨rfl, fun hnode => by simp [resolveNodeName, hnode]⟩

/-- C5 witness: the general synthesis applied at the claim's metadata. -/
theorem target_synthesis_spec_witness :
    ("http://app.net:8080" : String)
        = buildTarget (resolveProtocol [(labelEnabled, "true")]) (containerNameOf "app") "net"
            (resolvePort [(labelEnabled, "true")] [8080])
    ∧ (mapGet [(labelEnabled, "true")] labelNodeName = ""
        → ("app" : String) = containerNameOf "app") :=
  target_synthesis_spec.1 ⟨"app", [(labelEnabled, "true")], [8080]⟩ "net"
    { target := "http://app.net:8080", nodeName := "app",
      passHostHeader := false, trustForwardHeader := false } (by decide)

/-- C6 counterexample: the label value "1" lies outside the set containing
"true" and "false", yet the resolved forwarding flag is true, because
strconv.ParseBool also accepts "1", "t", "T", "TRUE" and "True". -/
theorem forwarding_flag_counterexample :
    ("1" : String) ≠ "true" ∧ ("1" : String) ≠ "false"
    ∧ parseBoolLabel "1" false = true
    ∧ resolveContainer ⟨"app", [(labelEnabled, "true"), (labelPassHostHeader, "1")], [80]⟩ "net"
        = ResolveOutcome.eligible
            { target := "http://app.net:80", nodeName := "app",
              passHostHeader := true, trustForwardHeader := false } := by
  refine ⟨by decide, by decide, by decide, by decide⟩

/-- C6 amended: a forwarding-flag label resolves to true exactly when its
value is one of the six literals strconv.ParseBool accepts as true; every
other value, including the empty string and absence, resolves to the
fail-safe default false. -/
theorem forwarding_flag_parse_spec :
    (∀ v, parseBoolLabel v false = true ↔
        (v = "1" ∨ v = "t" ∨ v = "T" ∨ v = "TRUE" ∨ v = "true" ∨ v = "True"))
    ∧ parseBoolLabel "" false = false := by
  refine ⟨?_, by decide⟩
  intro v
  by_cases he : v = ""
  · subst he
    simp [parseBoolLabel]
  · by_cases ht : v = "1" ∨ v = "t" ∨ v = "T" ∨ v = "TRUE" ∨ v = "true" ∨ v = "True"
    · simp [parseBoolLabel, parseBool, he, ht]
    · by_cases hf : v = "0" ∨ v = "f" ∨ v = "F" ∨ v = "FALSE" ∨ v = "false" ∨ v = "False"
      · simp [parseBoolLabel, parseBool, he, ht, hf]
      · simp [parseBoolLabel, parseBool, he, ht, hf]

/-- C10: a label present with an empty value is indistinguishable from an
absent label for the port, node-name and protocol keys, while an empty
enablement value still yields not-eligible. -/
theorem empty_label_equals_absent :
    (∀ (name : String) (L : List (String × String)) (ports : List Nat) (net : String),
        L.find? (fun p => p.1 = labelPort) = none →
        resolveContainer ⟨name, (labelPort, "") :: L, ports⟩ net
          = resolveContainer ⟨name, L, ports⟩ net)
    ∧ (∀ (name : String) (L : List (String × String)) (ports : List Nat) (net : String),
        L.find? (fun p => p.1 = labelNodeName) = none →
        resolveContainer ⟨name, (labelNodeName, "") :: L, ports⟩ net
          = resolveContainer ⟨name, L, ports⟩ net)
    ∧ (∀ (name : String) (L : List (String × String)) (ports : List Nat) (net : String),
        L.find? (fun p => p.1 = labelProtocol) = none →
        resolveContainer ⟨name, (labelProtocol, "") :: L, ports⟩ net
          = resolveContainer ⟨name, L, ports⟩ net)
    ∧ (∀ (name : String) (L : List (String × String)) (ports : List Nat) (net : String),
        resolveContainer ⟨name, (labelEnabled, "") :: L, ports⟩ net
          = ResolveOutcome.notEnabled) := by
  refine ⟨?_, ?_, ?_, ?_⟩
  · intro name L ports net hnone
    refine resolveContainer_congr _ _ net rfl rfl ?_ ?_ ?_ ?_ ?_ ?_
    · exact mapGet2_cons_ne L labelPort "" labelEnabled (by decide)
    · rw [mapGet, mapGet, mapGet2_cons_self, mapGet2_of_find?_none L labelPort hnone]
    · exact congrArg Prod.fst (mapGet2_cons_ne L labelPort "" labelNodeName (by decide))
    · exact congrArg Prod.fst (mapGet2_cons_ne L labelPort "" labelProtocol (by decide))
    · exact congrArg Prod.fst (mapGet2_cons_ne L labelPort "" labelPassHostHeader (by decide))
    · exact congrArg Prod.fst (mapGet2_cons_ne L labelPort "" labelTrustForwardHeader (by decide))
  · intro name L ports net hnone
    refine resolveContainer_congr _ _ net rfl rfl ?_ ?_ ?_ ?_ ?_ ?_
    · exact mapGet2_cons_ne L labelNodeName "" labelEnabled (by decide)
    · exact congrArg Prod.fst (mapGet2_cons_ne L labelNodeName "" labelPort (by decide))
    · rw [mapGet, mapGet, mapGet2_cons_self, mapGet2_of_find?_none L labelNodeName hnone]
    · exact congrArg Prod.fst (mapGet2_cons_ne L labelNodeName "" labelProtocol (by decide))
    · exact congrArg Prod.fst (mapGet2_cons_ne L labelNodeName "" labelPassHostHeader (by decide))
    · exact congrArg Prod.fst (mapGet2_cons_ne L labelNodeName "" labelTrustForwardHeader (by decide))
  · intro name L ports net hnone
    refine resolveContainer_congr _ _ net rfl rfl ?_ ?_ ?_ ?_ ?_ ?_
    · exact mapGet2_cons_ne L labelProtocol "" labelEnabled (by decide)
    · exact congrArg Prod.fst (mapGet2_cons_ne L labelProtocol "" labelPort (by decide))
    · exact congrArg Prod.fst (mapGet2_cons_ne L labelProtocol "" labelNodeName (by decide))
    · rw [mapGet, mapGet, mapGet2_cons_self, mapGet2_of_find?_none L labelProtocol hnone]
    · exact congrArg Prod.fst (mapGet2_cons_ne L labelProtocol "" labelPassHostHeader (by decide))
    · exact congrArg Prod.fst (mapGet2_cons_ne L labelProtocol "" labelTrustForwardHeader (by decide))
  · intro name L ports net
    have hg : enabledGuard ((labelEnabled, "") :: L) = true := by
      simp [enabledGuard, mapGet2_cons_self, toLower]
    simp [resolveContainer, hg]

/-- C10 witness: the port equivalence applied at a concrete label map, and
the empty enablement value at a concrete label map. -/
theorem empty_label_equals_absent_witness :
    resolveContainer ⟨"app", (labelPort, "") :: [(labelEnabled, "true")], [8080]⟩ "net"
      = resolveContainer ⟨"app", [(labelEnabled, "true")], [8080]⟩ "net"
    ∧ resolveContainer ⟨"app", (labelEnabled, "") :: [(labelPort, "80")], [8080]⟩ "net"
      = ResolveOutcome.notEnabled :=
  ⟨empty_label_equals_absent.1 "app" [(labelEnabled, "true")] [8080] "net" (by decide),
   empty_label_equals_absent.2.2.2 "app" [(labelPort, "80")] [8080] "net"⟩

/-- C1: the registry keeps at most one handle per identity under any
operation sequence; a failed start inserts nothing; handling an identity
already present is a no-op; handling the same identity twice from a state
where it is absent yields exactly one registry entry and exactly one
proxy-start call. -/
theorem registry_at_most_one_handle :
    (∀ ops : List WatcherOp, RegistryUnique (runOps initialWatcher ops))
    ∧ (∀ s containerID i net,
        (handleContainer s containerID i net false).proxies = s.proxies)
    ∧ (∀ s containerID i net ok, (registryLookup s.proxies containerID).isSome = true →
        handleContainer s containerID i net ok = s)
    ∧ (∀ s containerID i net cfg, resolveContainer i net = ResolveOutcome.eligible cfg →
        registryLookup s.proxies containerID = none →
        (handleContainer (handleContainer s containerID i net true) containerID i net true).proxies.countP
            (fun p => p.1 = containerID) = 1
        ∧ (handleContainer (handleContainer s containerID i net true) containerID i net true).startCalls
            = s.startCalls ++ [s.nextHandle]) := by
  refine ⟨?_, ?_, ?_, ?_⟩
  · intro ops
    exact runOps_unique ops initialWatcher (List.Pairwise.nil)
  · intro s containerID i net
    unfold handleContainer
    rcases resolveContainer i net with _ | _ | cfg
    · rfl
    · rfl
    · unfold registerContainer
      rcases hl : registryLookup s.proxies containerID with _ | v <;> simp [hl]
  · intro s containerID i net ok h
    unfold handleContainer
    rcases resolveContainer i net with _ | _ | cfg
    · rfl
    · rfl
    · unfold registerContainer
      simp [h]
  · intro s containerID i net cfg hres hnone
    have hc0 : s.proxies.countP (fun p => p.1 = containerID) = 0 := by
      rw [List.countP_eq_zero]
      intro a ha
      simpa using (registryLookup_eq_none s.proxies containerID).mp hnone a ha
    have h1 : handleContainer s containerID i net true
        = { s with proxies := s.proxies ++ [(containerID, s.nextHandle)],
                   startCalls := s.startCalls ++ [s.nextHandle],
                   nextHandle := s.nextHandle + 1 } := by
      unfold handleContainer
      rw [hres]
      unfold registerContainer
      simp [hnone]
    have h2 : registryLookup (s.proxies ++ [(containerID, s.nextHandle)]) containerID
        = some s.nextHandle := by
      unfold registryLookup
      rw [List.find?_append]
      rw [(List.find?_eq_none).mpr]
      · simp
      · intro a ha
        simpa using (registryLookup_eq_none s.proxies containerID).mp hnone a ha
    have h3 : handleContainer (handleContainer s containerID i net true) containerID i net true
        = handleContainer s containerID i net true := by
      rw [h1]
      unfold handleContainer
      rw [hres]
      unfold registerContainer
      simp only [h2]
      simp
    rw [h3, h1]
    constructor
    · simp [List.countP_append, hc0]
    · rfl

/-- C1 witness: handling the identity "c1" twice from the initial state. -/
theorem registry_at_most_one_handle_witness :
    (handleContainer (handleContainer initialWatcher "c1" ⟨"/app", [(labelEnabled, "true")], [80]⟩ "net" true)
        "c1" ⟨"/app", [(labelEnabled, "true")], [80]⟩ "net" true).proxies.countP
        (fun p => p.1 = "c1") = 1
    ∧ (handleContainer (handleContainer initialWatcher "c1" ⟨"/app", [(labelEnabled, "true")], [80]⟩ "net" true)
        "c1" ⟨"/app", [(labelEnabled, "true")], [80]⟩ "net" true).startCalls = [] ++ [0] :=
  registry_at_most_one_handle.2.2.2 initialWatcher "c1" ⟨"/app", [(labelEnabled, "true")], [80]⟩ "net"
    { target := "http://app.net:80", nodeName := "app",
      passHostHeader := false, trustForwardHeader := false } (by decide) (by decide)

/-- C2: a stop, die or kill event for a registered identity removes it from
the registry and invokes its handle's Stop exactly once; any subsequent
stop, die or kill for the same identity is a no-op because the lookup now
misses and the stop call is skipped. -/
theorem teardown_idempotent (s : WatcherState) (containerID : String) (h : Nat)
    (hreg : registryLookup s.proxies containerID = some h) :
    watchContainerStop s containerID (WatchEvent.message "stop")
        = WatchStep.exit (stopProxy s containerID)
    ∧ registryLookup (stopProxy s containerID).proxies containerID = none
    ∧ (stopProxy s containerID).stopCalls = s.stopCalls ++ [h]
    ∧ (h ∉ s.stopCalls → ((stopProxy s containerID).stopCalls).count h = 1)
    ∧ stopProxy (stopProxy s containerID) containerID = stopProxy s containerID
    ∧ watchContainerStop (stopProxy s containerID) containerID (WatchEvent.message "stop")
        = WatchStep.exit (stopProxy s containerID)
    ∧ watchContainerStop (stopProxy s containerID) containerID (WatchEvent.message "die")
        = WatchStep.exit (stopProxy s containerID)
    ∧ watchContainerStop (stopProxy s containerID) containerID (WatchEvent.message "kill")
        = WatchStep.exit (stopProxy s containerID)
  := by
  have h1 : stopProxy s containerID
      = { s with proxies := s.proxies.filter (fun p => p.1 ≠ containerID),
                 stopCalls := s.stopCalls ++ [h] } := by
    unfold stopProxy
    rw [hreg]
  have h2 : registryLookup (stopProxy s containerID).proxies containerID = none := by
    rw [h1]
    exact registryLookup_filter_self s.proxies containerID
  have h3 : stopProxy (stopProxy s containerID) containerID = stopProxy s containerID := by
    have hgen : ∀ s' : WatcherState, registryLookup s'.proxies containerID = none →
        stopProxy s' containerID = s' := by
      intro s' hn
      unfold stopProxy
      rw [hn]
    exact hgen _ h2
  refine ⟨by simp [watchContainerStop], h2, by rw [h1], ?_, h3, ?_, ?_, ?_⟩
  · intro hnot
    rw [h1]
    simp only [List.count_append]
    rw [List.count_eq_zero.mpr hnot]
    simp
  · simp [watchContainerStop, h3]
  · simp [watchContainerStop, h3]
  · simp [watchContainerStop, h3]

/-- C2 witness: teardown of the registered identity "c1". -/
theorem teardown_idempotent_witness :
    stopProxy (stopProxy (registerContainer initialWatcher "c1" true) "c1") "c1"
      = stopProxy (registerContainer initialWatcher "c1" true) "c1" :=
  (teardown_idempotent (registerContainer initialWatcher "c1" true) "c1" 0
    (by decide)).2.2.2.2.1

/-- C7 counterexample: with the identity "c1" registered and its proxy
started, an error-channel delivery (the container-scoped stream ending
without cancellation) makes the stop watcher exit with the state unchanged:
the identity is still registered and no Stop call was made, so stream
termination is not treated as an implicit stop signal. -/
theorem stream_end_no_teardown_counterexample :
    watchContainerStop (registerContainer initialWatcher "c1" true) "c1" WatchEvent.streamErr
      = WatchStep.exit (registerContainer initialWatcher "c1" true)
    ∧ registryLookup (registerContainer initialWatcher "c1" true).proxies "c1" = some 0
    ∧ (registerContainer initialWatcher "c1" true).stopCalls = [] := by
  refine ⟨by decide, by decide, by decide⟩

/-- C7 amended: the stop watcher performs teardown and exits on a stop, die
or kill event; on the stream ending without explicit cancellation, and on
cancellation, it exits without performing teardown, leaving the registry
entry and the handle untouched. -/
theorem watch_container_stop_spec (s : WatcherState) (containerID : String) :
    (∀ action, (action = "stop" ∨ action = "die" ∨ action = "kill") →
        watchContainerStop s containerID (WatchEvent.message action)
          = WatchStep.exit (stopProxy s containerID))
    ∧ watchContainerStop s containerID WatchEvent.streamErr = WatchStep.exit s
    ∧ watchContainerStop s containerID WatchEvent.ctxDone = WatchStep.exit s := by
  refine ⟨?_, rfl, rfl⟩
  intro action haction
  simp [watchContainerStop, haction]

/-- C7 amended witness: a die event for the registered identity "c1". -/
theorem watch_container_stop_spec_witness :
    watchContainerStop (registerContainer initialWatcher "c1" true) "c1"
        (WatchEvent.message "die")
      = WatchStep.exit (stopProxy (registerContainer initialWatcher "c1" true) "c1") :=
  (watch_container_stop_spec (registerContainer initialWatcher "c1" true) "c1").1 "die"
    (Or.inr (Or.inl rfl))

/-- C8: Stop empties the registry, invokes Stop once for every drained
handle (N registered identities yield N stop calls), emits the client Close
only after all stop calls and the task wait last, and is safe when nothing
was ever registered. -/
theorem watcher_stop_spec (s : WatcherState) :
    (watcherStop s).1.proxies = []
    ∧ (watcherStop s).1.stopCalls = s.stopCalls ++ s.proxies.map (fun p => p.2)
    ∧ (watcherStop s).1.stopCalls.length = s.stopCalls.length + s.proxies.length
    ∧ (∀ p ∈ s.proxies, p.2 ∈ (watcherStop s).1.stopCalls)
    ∧ (watcherStop s).2
        = StopEffect.cancel ::
            ((s.proxies.map (fun p => p.2)).map StopEffect.stopProxyCall
              ++ [StopEffect.closeClient, StopEffect.waitTasks])
    ∧ (watcherStop s).2.getLast? = some StopEffect.waitTasks
    ∧ (watcherStop initialWatcher).1 = initialWatcher
    ∧ (watcherStop initialWatcher).2
        = [StopEffect.cancel, StopEffect.closeClient, StopEffect.waitTasks] := by
  refine ⟨rfl, rfl, by simp [watcherStop], ?_, rfl, ?_, by decide, by decide⟩
  · intro p hp
    simp only [watcherStop]
    exact List.mem_append_right _ (List.mem_map.mpr ⟨p, hp, rfl⟩)
  · simp only [watcherStop]
    rw [show StopEffect.cancel ::
          ((s.proxies.map (fun p => p.2)).map StopEffect.stopProxyCall
            ++ [StopEffect.closeClient, StopEffect.waitTasks])
        = (StopEffect.cancel ::
            ((s.proxies.map (fun p => p.2)).map StopEffect.stopProxyCall
              ++ [StopEffect.closeClient])) ++ [StopEffect.waitTasks] by simp]
    exact List.getLast?_concat _

/-- C9 counterexample: for a delivered container start event, the inspection
effect is performed synchronously in the ingestion loop iteration (it heads
the list of effects run before the loop can receive the next event); only
the proxy-start task is spawned asynchronously.  A slow inspection therefore
stalls delivery of subsequent events, contradicting the claimed asynchronous
dispatch. -/
theorem ingestion_inspect_synchronous_counterexample :
    handleEventSync { type := "container", action := "start", actorID := "c1" }
        ⟨"/app", [(labelEnabled, "true")], [80]⟩ "net" false
      = [Effect.inspect "c1", Effect.spawnStartTask "c1"]
    ∧ Effect.inspect "c1" ∈
        handleEventSync { type := "container", action := "start", actorID := "c1" }
          ⟨"/app", [(labelEnabled, "true")], [80]⟩ "net" false := by
  refine ⟨by decide, by decide⟩

/-- C9 amended: the ingestion loop handles each delivered start event
synchronously: the container inspection is the first effect of the loop
iteration itself, and the only asynchronous dispatch is the proxy-start
task, spawned exactly when the container is eligible and not yet
registered. -/
theorem ingestion_loop_sync_spec (event : DockerEvent) (i : ContainerInspect)
    (net : String) (registryHas : Bool)
    (htype : event.type = "container") (haction : event.action = "start") :
    (handleEventSync event i net registryHas).head? = some (Effect.inspect event.actorID)
    ∧ (Effect.spawnStartTask event.actorID ∈ handleEventSync event i net registryHas ↔
        ((∃ cfg, resolveContainer i net = ResolveOutcome.eligible cfg) ∧ registryHas = false)) := by
  have hunfold : handleEventSync event i net registryHas
      = handleContainerSync event.actorID i net registryHas := by
    simp [handleEventSync, htype, haction]
  rw [hunfold]
  constructor
  · rfl
  · unfold handleContainerSync
    rcases hres : resolveContainer i net with _ | _ | cfg
    · simp [hres]
    · simp [hres]
    · rcases registryHas with _ | _
      · simp
      · simp

/-- C9 amended witness: a concrete start event for the identity "c1". -/
theorem ingestion_loop_sync_spec_witness :
    (handleEventSync { type := "container", action := "start", actorID := "c1" }
        ⟨"/app", [(labelEnabled, "true")], [80]⟩ "net" false).head?
      = some (Effect.inspect "c1") :=
  (ingestion_loop_sync_spec { type := "container", action := "start", actorID := "c1" }
    ⟨"/app", [(labelEnabled, "true")], [80]⟩ "net" false rfl rfl).1
